import Mathlib

/-!
Verification development for the extraction compiler of the repository
(src/adaptix/_internal/provider/model/input_extraction_gen.py).

The source is a code generator: BuiltinInputExtractionGen walks a crown tree
once and emits a linear Python procedure that extracts raw values from input
data, calls field loaders and stores the results.  We model it with two
shallow embeddings, both traced line by line from the source:

* a runtime interpreter (genCrownDispatch and friends) that gives the
  semantics of the emitted procedure: it performs, for each crown node, the
  very statements the generator emits for that node, in emission order,
  including the try/except structure, the debug-trail modes and the
  compile-time memoisation of type-check clauses (checkedTypePaths), which
  decides which except-clauses exist at each read site;

* a compile-time state model (cgenCrownDispatch and friends) for the
  GenState bookkeeping: path, parent_path, crown_stack, checked_type_paths
  and field_id_to_path, together with the compile-time failure points
  (KeyError on unknown field ids or loaders, TypeError on a non-branch root
  crown) and the add_key context manager, which - having no try/finally
  around its yield - restores state only on a normal exit.

Supporting data types (crown definitions, DebugTrail, the load-error
taxonomy and trail decoration) are not part of the examined sources; they
are modelled from the spec, keeping the source's names.
-/

namespace Adaptix

/-- Modelled from the spec: the DebugTrail enum (provider/definitions.py is
not among the sources): NONE, FIRST, ALL. -/
inductive DebugTrail
  | dtNone
  | dtFirst
  | dtAll
deriving DecidableEq, Repr

/-- Modelled from the spec: extra-data policy of a branch crown
(crown_definitions.py is not among the sources): ExtraForbid, ExtraCollect,
ExtraSkip/ignore. -/
inductive ExtraPolicy
  | forbid
  | collect
  | ignore
deriving DecidableEq, Repr

/-- Path element of a crown path: a mapping key or a sequence index. -/
inductive PathElem
  | key (k : String)
  | idx (i : Nat)
deriving DecidableEq, Repr

/-- Modelled from the spec: the input crown tree (crown_definitions.py is not
among the sources).  InpDictCrown holds an ordered mapping key to sub-crown
plus an extra policy, InpListCrown an ordered list of sub-crowns plus an
extra policy, InpFieldCrown references one field id, InpNoneCrown is a
placeholder leaf. -/
inductive InpCrown
  | dictC (m : List (String × InpCrown)) (extraPolicy : ExtraPolicy)
  | listC (m : List InpCrown) (extraPolicy : ExtraPolicy)
  | fieldC (id : String)
  | noneC

/-- Modelled from the spec: the extra_move descriptor of the name layout:
either nothing or ExtraTargets over a list of field ids. -/
inductive ExtraMove
  | noMove
  | extraTargets (fields : List String)

/-- JSON-like Python values processed by the generated procedure. -/
inductive Value
  | vdict (entries : List (String × Value))
  | vlist (items : List Value)
  | vstr (s : String)
  | vint (n : Int)
  | vnone

/-- The two container kinds named by TypeLoadError(dict) / TypeLoadError(list). -/
inductive TypeKind
  | dictKind
  | listKind
deriving DecidableEq, Repr

/-- Exceptions observable in the generated code: the load-error taxonomy
(modelled from the spec; load_error.py is not among the sources), the plain
Python exceptions that the emitted lookups can raise, and opaque
loader-raised errors. -/
inductive PyExc
  | typeLoadError (k : TypeKind)
  | noRequiredFieldsError (keys : List String)
  | noRequiredItemsError (n : Nat)
  | extraFieldsError (keys : List String)
  | extraItemsError (n : Nat)
  | keyError
  | indexError
  | typeError
  | nameError
  | loadError (tag : String)
deriving DecidableEq, Repr

/-- An exception decorated with a struct trail (append_trail / extend_trail
attach a path; modelled from the spec, struct_trail.py is not among the
sources).  An empty trail means no decoration was attached. -/
structure Trailed where
  exc : PyExc
  trail : List PathElem
deriving DecidableEq, Repr

/-- An input field of the shape: id and required flag
(model_tools InputField, as consumed by the generator). -/
structure InputField where
  id : String
  isRequired : Bool
deriving DecidableEq, Repr

/-- A resolved field loader: either the as_is_stub (which the generator
inlines, emitting no call) or an actual loader callable which may fail. -/
inductive FieldLoader
  | asIsStub
  | loaderFn (f : Value → Except PyExc Value)

/-- Everything BuiltinInputExtractionGen.__init__ consumes: shape fields,
name layout (crown plus extra_move), debug_trail, strict_coercion and the
resolved field loaders. -/
structure Config where
  crown : InpCrown
  extraMove : ExtraMove
  debugTrail : DebugTrail
  strictCoercion : Bool
  fields : List InputField
  fieldLoaders : List (String × FieldLoader)

/-- BuiltinInputExtractionGen._can_collect_extra: extra_move is not None. -/
def canCollectExtra (cfg : Config) : Bool :=
  match cfg.extraMove with
  | ExtraMove.noMove => false
  | ExtraMove.extraTargets _ => true

/-- Association-list lookup, the semantics of a Python dict read d[k]
(first matching key; dicts hold each key once). -/
def alookup {κ : Type} [DecidableEq κ] {β : Type} (m : List (κ × β)) (k : κ) : Option β :=
  match m with
  | [] => Option.none
  | (k1, v) :: rest => if k1 = k then some v else alookup rest k

/-- Python dict item assignment d[k] = v: update in place when the key
exists, append at the end otherwise (dict insertion order). -/
def aupdate {κ : Type} [DecidableEq κ] {β : Type} (m : List (κ × β)) (k : κ) (v : β) : List (κ × β) :=
  match m with
  | [] => [(k, v)]
  | (k1, v1) :: rest => if k1 = k then (k, v) :: rest else (k1, v1) :: aupdate rest k v

/-- Python subscript read container[el], with the container possibly being
an undefined name (Option.none models a variable the generated code never
assigned, whose use raises NameError).  A str indexed by an int yields its
character - Python iterates string characters happily. -/
def pyLookup (container : Option Value) (el : PathElem) : Except PyExc Value :=
  match container, el with
  | Option.none, _ => Except.error PyExc.nameError
  | some (Value.vdict m), PathElem.key k =>
    match alookup m k with
    | some v => Except.ok v
    | Option.none => Except.error PyExc.keyError
  | some (Value.vlist _), PathElem.key _ => Except.error PyExc.typeError
  | some (Value.vstr _), PathElem.key _ => Except.error PyExc.typeError
  | some (Value.vint _), PathElem.key _ => Except.error PyExc.typeError
  | some Value.vnone, PathElem.key _ => Except.error PyExc.typeError
  | some (Value.vdict _), PathElem.idx _ => Except.error PyExc.keyError
  | some (Value.vlist xs), PathElem.idx i =>
    match xs.get? i with
    | some v => Except.ok v
    | Option.none => Except.error PyExc.indexError
  | some (Value.vstr s), PathElem.idx i =>
    match s.data.get? i with
    | some c => Except.ok (Value.vstr (String.mk [c]))
    | Option.none => Except.error PyExc.indexError
  | some (Value.vint _), PathElem.idx _ => Except.error PyExc.typeError
  | some Value.vnone, PathElem.idx _ => Except.error PyExc.typeError

/-- Python subscript assignment container[el] = v, as used for the extra
holders: key assignment into a dict holder, index assignment into the
preallocated list holder. -/
def pySetItem (container : Value) (el : PathElem) (v : Value) : Except PyExc Value :=
  match container, el with
  | Value.vdict m, PathElem.key k => Except.ok (Value.vdict (aupdate m k v))
  | Value.vlist xs, PathElem.idx i =>
    if i < xs.length then Except.ok (Value.vlist (xs.set i v))
    else Except.error PyExc.indexError
  | _, _ => Except.error PyExc.typeError

def valueIsStr : Value → Bool
  | Value.vstr _ => true
  | _ => false

def valueAsStr : Value → String
  | Value.vstr s => s
  | _ => ""

/-- Python set(data) over an input value, as a list of string keys: a dict
iterates its keys, a str its characters; list items are hashed (we model
string items; unhashable dict/list items raise TypeError, other hashable
item types are outside the modelled value universe); everything else is not
iterable.  An undefined name raises NameError. -/
def pyKeySet (container : Option Value) : Except PyExc (List String) :=
  match container with
  | Option.none => Except.error PyExc.nameError
  | some (Value.vdict m) => Except.ok (m.map Prod.fst).dedup
  | some (Value.vstr s) => Except.ok ((s.data.map (fun c => String.mk [c])).dedup)
  | some (Value.vlist xs) =>
    if xs.all valueIsStr then Except.ok ((xs.map valueAsStr).dedup)
    else Except.error PyExc.typeError
  | some (Value.vint _) => Except.error PyExc.typeError
  | some Value.vnone => Except.error PyExc.typeError

/-- Python len(data); dicts count their keys, TypeError on int/None, and an
undefined name raises NameError. -/
def pyLen (container : Option Value) : Except PyExc Nat :=
  match container with
  | Option.none => Except.error PyExc.nameError
  | some (Value.vdict m) => Except.ok m.length
  | some (Value.vlist xs) => Except.ok xs.length
  | some (Value.vstr s) => Except.ok s.length
  | some (Value.vint _) => Except.error PyExc.typeError
  | some Value.vnone => Except.error PyExc.typeError

/-- isinstance(data, CollectionsSequence): Python lists and strings register
as Sequence, dicts and scalars do not. -/
def pyIsSequence : Value → Bool
  | Value.vlist _ => true
  | Value.vstr _ => true
  | _ => false

/-- Runtime state of one invocation of the generated procedure: the ALL-mode
errors list and has_unexpected_error flag, the field variables, the
opt_fields dict, the per-path extra holders, the compile-time
checked_type_paths memo (threaded here because it decides which
except-clauses exist at each read site; the interpreter visits read sites
in emission order), and a log of loader invocations for observability. -/
structure RState where
  errors : List Trailed
  hasUnexpectedError : Bool
  fieldVals : List (String × Value)
  optFields : List (String × Value)
  extras : List (List PathElem × Value)
  checkedTypePaths : List (List PathElem)
  calls : List (String × Value)

def initRState : RState := ⟨[], false, [], [], [], [], []⟩

/-- GenState.with_trail: decorate with the given path under FIRST/ALL
(a length-0 path attaches nothing), return the bare error under NONE. -/
def withTrail (dt : DebugTrail) (e : PyExc) (path : List PathElem) : Trailed :=
  match dt with
  | DebugTrail.dtNone => ⟨e, []⟩
  | _ => ⟨e, path⟩

/-- GenState.emit_error: under ALL append the decorated error to the errors
list and continue; otherwise raise it. -/
def emitError (cfg : Config) (e : PyExc) (path : List PathElem) (st : RState) :
    RState × Option Trailed :=
  match cfg.debugTrail with
  | DebugTrail.dtAll =>
    ({ st with errors := st.errors ++ [withTrail cfg.debugTrail e path] }, Option.none)
  | _ => (st, some (withTrail cfg.debugTrail e path))

/-- Result of the emitted try-assignment from parent data: the try body
assigned the raw value (the else-branch runs), an exception was caught and
swallowed leaving the target name undefined, or an exception propagates. -/
inductive AssignRes
  | assigned (v : Value)
  | skipped
  | raisedE (e : Trailed)

/-- The except-class KeyError (string keys) or IndexError (indices) caught
as lookup failure in _gen_assigment_from_parent_data. -/
def lookupErrorOf : PathElem → PyExc
  | PathElem.key _ => PyExc.keyError
  | PathElem.idx _ => PyExc.indexError

/-- Whether exc matches the bad-type except clause (TypeError, IndexError)
for string keys respectively (TypeError, KeyError) for indices. -/
def badTypeHit : PathElem → PyExc → Bool
  | PathElem.key _, PyExc.typeError => true
  | PathElem.key _, PyExc.indexError => true
  | PathElem.idx _, PyExc.typeError => true
  | PathElem.idx _, PyExc.keyError => true
  | _, _ => false

/-- TypeLoadError(dict) for string keys, TypeLoadError(list) for indices. -/
def badTypeLoadErrorOf : PathElem → PyExc
  | PathElem.key _ => PyExc.typeLoadError TypeKind.dictKind
  | PathElem.idx _ => PyExc.typeLoadError TypeKind.listKind

/-- NoRequiredFieldsError([key]) for string keys,
NoRequiredItemsError(len(parent_crown.map)) for indices. -/
def notFoundErrorOf : PathElem → Nat → PyExc
  | PathElem.key k, _ => PyExc.noRequiredFieldsError [k]
  | PathElem.idx _, parentLen => PyExc.noRequiredItemsError parentLen

/-- The except-clause cascade of the emitted read, given whether the
bad-type clause was emitted at this site (hasClause).  Mirrors
_gen_assigment_from_parent_data lines 309-354: first the lookup-error
clause (pass when ignore_lookup_error, else
emit_error_for_from_data_assigment, which under ALL appends for string keys
and is a bare pass for indices, and otherwise raises, decorated with the
parent path), then the bad-type clause raising the decorated
TypeLoadError for the parent, then the debug-trail generic clause (FIRST:
decorate and re-raise; ALL: append and set has_unexpected_error).  An
exception no clause catches propagates undecorated. -/
def assignCore (cfg : Config) (path : List PathElem) (lastEl : PathElem)
    (parentPath : List PathElem) (parentData : Option Value) (parentLen : Nat)
    (ignoreLookupError : Bool) (hasClause : Bool) (st : RState) : RState × AssignRes :=
  match pyLookup parentData lastEl with
  | Except.ok v => (st, AssignRes.assigned v)
  | Except.error exc =>
    if exc = lookupErrorOf lastEl then
      if ignoreLookupError then (st, AssignRes.skipped)
      else
        match cfg.debugTrail with
        | DebugTrail.dtAll =>
          match lastEl with
          | PathElem.key _ =>
            ({ st with errors := st.errors ++
                [withTrail cfg.debugTrail (notFoundErrorOf lastEl parentLen) parentPath] },
             AssignRes.skipped)
          | PathElem.idx _ => (st, AssignRes.skipped)
        | _ =>
          (st, AssignRes.raisedE (withTrail cfg.debugTrail (notFoundErrorOf lastEl parentLen) parentPath))
    else if hasClause && badTypeHit lastEl exc then
      (st, AssignRes.raisedE (withTrail cfg.debugTrail (badTypeLoadErrorOf lastEl) parentPath))
    else
      match cfg.debugTrail with
      | DebugTrail.dtNone => (st, AssignRes.raisedE ⟨exc, []⟩)
      | DebugTrail.dtFirst => (st, AssignRes.raisedE (withTrail cfg.debugTrail exc path))
      | DebugTrail.dtAll =>
        ({ st with
            errors := st.errors ++ [withTrail cfg.debugTrail exc path]
            hasUnexpectedError := true }, AssignRes.skipped)

/-- _gen_assigment_from_parent_data: the bad-type except clause is emitted
only when the parent path is not yet in checked_type_paths, which is then
updated - a per-read-site compile-time decision, replayed here because the
interpreter visits read sites in emission order. -/
def genAssigmentFromParentData (cfg : Config) (path : List PathElem) (lastEl : PathElem)
    (parentPath : List PathElem) (parentData : Option Value) (parentLen : Nat)
    (ignoreLookupError : Bool) (st : RState) : RState × AssignRes :=
  if parentPath ∈ st.checkedTypePaths then
    assignCore cfg path lastEl parentPath parentData parentLen ignoreLookupError false st
  else
    assignCore cfg path lastEl parentPath parentData parentLen ignoreLookupError true
      { st with checkedTypePaths := parentPath :: st.checkedTypePaths }

def assignField (st : RState) (toOptFields : Bool) (fieldId : String) (v : Value) : RState :=
  if toOptFields then { st with optFields := aupdate st.optFields fieldId v }
  else { st with fieldVals := aupdate st.fieldVals fieldId v }

/-- _gen_field_assigment: the as_is_stub is inlined (no loader call);
otherwise the loader is invoked (recorded in the call log) and, under
ALL/FIRST, a failure is routed through emit_error; under NONE there is no
try and the loader's exception propagates bare.  A missing loader id is a
compile-time KeyError, unreachable for layouts that compiled. -/
def genFieldAssigment (cfg : Config) (path : List PathElem) (toOptFields : Bool)
    (fieldId : String) (loaderArg : Value) (st : RState) : RState × Option Trailed :=
  match alookup cfg.fieldLoaders fieldId with
  | Option.none => (st, some ⟨PyExc.keyError, []⟩)
  | some FieldLoader.asIsStub => (assignField st toOptFields fieldId loaderArg, Option.none)
  | some (FieldLoader.loaderFn f) =>
    let st1 := { st with calls := st.calls ++ [(fieldId, loaderArg)] }
    match f loaderArg with
    | Except.ok v => (assignField st1 toOptFields fieldId v, Option.none)
    | Except.error exc =>
      match cfg.debugTrail with
      | DebugTrail.dtNone => (st1, some ⟨exc, []⟩)
      | DebugTrail.dtFirst => (st1, some (withTrail cfg.debugTrail exc path))
      | DebugTrail.dtAll =>
        ({ st1 with errors := st1.errors ++ [withTrail cfg.debugTrail exc path] }, Option.none)

/-- _gen_field_crown: resolve the field (get_field would KeyError at compile
time on an unknown id), read the raw value from the parent container
(lookup misses are ignored for optional fields), then on the read's
else-branch run the field assignment into the field variable (required) or
the opt_fields dict (optional). -/
def genFieldCrown (cfg : Config) (fieldId : String) (lastEl : PathElem)
    (parentPath : List PathElem) (parentData : Option Value) (parentLen : Nat)
    (st : RState) : RState × Option Trailed :=
  let path := parentPath ++ [lastEl]
  match cfg.fields.find? (fun f => f.id = fieldId) with
  | Option.none => (st, some ⟨PyExc.keyError, []⟩)
  | some fld =>
    match genAssigmentFromParentData cfg path lastEl parentPath parentData parentLen
        (!fld.isRequired) st with
    | (st1, AssignRes.assigned v) => genFieldAssigment cfg path (!fld.isRequired) fieldId v st1
    | (st1, AssignRes.skipped) => (st1, Option.none)
    | (st1, AssignRes.raisedE e) => (st1, some e)

/-- The empty-map shape check of _gen_dict_crown: when the crown declares no
children, emit an unconditional isinstance check against Mapping, raising
the decorated TypeLoadError(dict).  Using the undefined data name raises
NameError. -/
def dictEmptyMapCheck (cfg : Config) (path : List PathElem) (dataOpt : Option Value) :
    Option Trailed :=
  match dataOpt with
  | Option.none => some ⟨PyExc.nameError, []⟩
  | some (Value.vdict _) => Option.none
  | some _ => some (withTrail cfg.debugTrail (PyExc.typeLoadError TypeKind.dictKind) path)

/-- The ExtraCollect loop: for key in set(data) - known_keys:
extra[key] = data[key].  The subscripts run outside any try, so their
exceptions propagate bare. -/
def collectExtraLoop (dataOpt : Option Value) (keys : List String)
    (path : List PathElem) (st : RState) : RState × Option Trailed :=
  match keys with
  | [] => (st, Option.none)
  | k :: rest =>
    match pyLookup dataOpt (PathElem.key k) with
    | Except.error exc => (st, some ⟨exc, []⟩)
    | Except.ok v =>
      match alookup st.extras path with
      | Option.none => (st, some ⟨PyExc.nameError, []⟩)
      | some ex =>
        match pySetItem ex (PathElem.key k) v with
        | Except.error exc2 => (st, some ⟨exc2, []⟩)
        | Except.ok ex2 =>
          collectExtraLoop dataOpt rest path { st with extras := aupdate st.extras path ex2 }

/-- The extra-policy block of _gen_dict_crown (lines 382-399): under Forbid
compute set(data) - known_keys and emit ExtraFieldsError when non-empty;
under Collect copy those keys into the extra holder; Ignore does nothing.
The set difference and subscripts run outside any try. -/
def dictExtraPolicyStep (cfg : Config) (knownKeys : List String) (ep : ExtraPolicy)
    (path : List PathElem) (dataOpt : Option Value) (st : RState) : RState × Option Trailed :=
  match ep with
  | ExtraPolicy.ignore => (st, Option.none)
  | ExtraPolicy.forbid =>
    match pyKeySet dataOpt with
    | Except.error exc => (st, some ⟨exc, []⟩)
    | Except.ok ks =>
      let unclaimed := ks.filter (fun k => decide (k ∉ knownKeys))
      if unclaimed.isEmpty then (st, Option.none)
      else emitError cfg (PyExc.extraFieldsError unclaimed) path st
  | ExtraPolicy.collect =>
    match pyKeySet dataOpt with
    | Except.error exc => (st, some ⟨exc, []⟩)
    | Except.ok ks =>
      collectExtraLoop dataOpt (ks.filter (fun k => decide (k ∉ knownKeys))) path st

/-- The strict-coercion guard of _gen_list_crown: if type(data) is str,
raise the decorated TypeLoadError(list) - a bare raise in every debug-trail
mode (the source marks it with a fix-raise TODO). -/
def listStrictCoercionCheck (cfg : Config) (path : List PathElem)
    (dataOpt : Option Value) : Option Trailed :=
  match dataOpt with
  | Option.none => some ⟨PyExc.nameError, []⟩
  | some (Value.vstr _) =>
    some (withTrail cfg.debugTrail (PyExc.typeLoadError TypeKind.listKind) path)
  | some _ => Option.none

/-- The empty-map shape check of _gen_list_crown: isinstance against
Sequence (Python str also registers as Sequence). -/
def listEmptyMapCheck (cfg : Config) (path : List PathElem) (dataOpt : Option Value) :
    Option Trailed :=
  match dataOpt with
  | Option.none => some ⟨PyExc.nameError, []⟩
  | some v =>
    if pyIsSequence v then Option.none
    else some (withTrail cfg.debugTrail (PyExc.typeLoadError TypeKind.listKind) path)

/-- The length checks of _gen_list_crown (lines 437-451): under Forbid a
length mismatch emits NoRequiredItemsError (shorter) or ExtraItemsError
(longer); under any other policy only a shorter input is an error and
trailing items pass silently.  len(data) runs outside any try. -/
def listLenCheck (cfg : Config) (n : Nat) (ep : ExtraPolicy) (path : List PathElem)
    (dataOpt : Option Value) (st : RState) : RState × Option Trailed :=
  match pyLen dataOpt with
  | Except.error exc => (st, some ⟨exc, []⟩)
  | Except.ok l =>
    match ep with
    | ExtraPolicy.forbid =>
      if l = n then (st, Option.none)
      else if l < n then emitError cfg (PyExc.noRequiredItemsError n) path st
      else emitError cfg (PyExc.extraItemsError n) path st
    | _ =>
      if l < n then emitError cfg (PyExc.noRequiredItemsError n) path st
      else (st, Option.none)

/-- _gen_add_self_extra_to_parent_extra, guarded by _can_collect_extra at
both call sites: at a non-root node assign the node's extra holder into the
parent's holder under the node's own key. -/
def addSelfExtraToParentExtra (cfg : Config) (selfKey : Option PathElem)
    (parentPath path : List PathElem) (st : RState) : RState × Option Trailed :=
  if canCollectExtra cfg then
    match selfKey with
    | Option.none => (st, Option.none)
    | some k =>
      match alookup st.extras path with
      | Option.none => (st, some ⟨PyExc.nameError, []⟩)
      | some selfEx =>
        match alookup st.extras parentPath with
        | Option.none => (st, some ⟨PyExc.nameError, []⟩)
        | some parentEx =>
          match pySetItem parentEx k selfEx with
          | Except.error exc => (st, some ⟨exc, []⟩)
          | Except.ok pex2 => ({ st with extras := aupdate st.extras parentPath pex2 }, Option.none)
  else (st, Option.none)

/-- The preallocated list extra holder slots of _gen_list_crown: an empty
dict for field/none sub-crowns, Python None for branch sub-crowns. -/
def listExtraSlot : InpCrown → Value
  | InpCrown.fieldC _ => Value.vdict []
  | InpCrown.noneC => Value.vdict []
  | _ => Value.vnone

mutual

/-- Runtime semantics of the code emitted by _gen_crown_dispatch and, for a
selfKey of Option.none, by the root call of _gen_root_crown_dispatch.  The
bodies of _gen_dict_crown and _gen_list_crown are inlined into the dict and
list branches (the emission order of the source is kept: parent read,
strict-coercion guard for lists, extra-holder creation, children in
declared order, empty-map shape check, extra-policy or length block,
self-extra propagation).  A field crown at the root is rejected at compile
time (TypeError) and never dispatched at runtime. -/
def genCrownDispatch (cfg : Config) (crown : InpCrown) (selfKey : Option PathElem)
    (parentPath : List PathElem) (parentData : Option Value) (parentLen : Nat)
    (st : RState) : RState × Option Trailed :=
  match crown with
  | InpCrown.dictC m ep =>
    let path := match selfKey with
      | some k => parentPath ++ [k]
      | Option.none => ([] : List PathElem)
    let read : RState × (Option Value ⊕ Trailed) :=
      match selfKey with
      | Option.none => (st, Sum.inl parentData)
      | some k =>
        match genAssigmentFromParentData cfg path k parentPath parentData parentLen false st with
        | (st1, AssignRes.assigned v) => (st1, Sum.inl (some v))
        | (st1, AssignRes.skipped) => (st1, Sum.inl Option.none)
        | (st1, AssignRes.raisedE e) => (st1, Sum.inr e)
    match read with
    | (st1, Sum.inr e) => (st1, some e)
    | (st1, Sum.inl dataOpt) =>
      let st2 := if canCollectExtra cfg then
          { st1 with extras := aupdate st1.extras path (Value.vdict []) }
        else st1
      match genDictCrownEntries cfg m path dataOpt m.length st2 with
      | (st3, some e) => (st3, some e)
      | (st3, Option.none) =>
        match (if m.isEmpty then dictEmptyMapCheck cfg path dataOpt else Option.none) with
        | some e => (st3, some e)
        | Option.none =>
          match dictExtraPolicyStep cfg (m.map Prod.fst) ep path dataOpt st3 with
          | (st4, some e) => (st4, some e)
          | (st4, Option.none) => addSelfExtraToParentExtra cfg selfKey parentPath path st4
  | InpCrown.listC m ep =>
    let path := match selfKey with
      | some k => parentPath ++ [k]
      | Option.none => ([] : List PathElem)
    let read : RState × (Option Value ⊕ Trailed) :=
      match selfKey with
      | Option.none => (st, Sum.inl parentData)
      | some k =>
        match genAssigmentFromParentData cfg path k parentPath parentData parentLen false st with
        | (st1, AssignRes.assigned v) => (st1, Sum.inl (some v))
        | (st1, AssignRes.skipped) => (st1, Sum.inl Option.none)
        | (st1, AssignRes.raisedE e) => (st1, Sum.inr e)
    match read with
    | (st1, Sum.inr e) => (st1, some e)
    | (st1, Sum.inl dataOpt) =>
      match (if cfg.strictCoercion then listStrictCoercionCheck cfg path dataOpt
             else Option.none) with
      | some e => (st1, some e)
      | Option.none =>
        let st2 := if canCollectExtra cfg then
            { st1 with extras := aupdate st1.extras path (Value.vlist (m.map listExtraSlot)) }
          else st1
        match genListCrownItems cfg m 0 path dataOpt m.length st2 with
        | (st3, some e) => (st3, some e)
        | (st3, Option.none) =>
          match (if m.isEmpty then listEmptyMapCheck cfg path dataOpt else Option.none) with
          | some e => (st3, some e)
          | Option.none =>
            match listLenCheck cfg m.length ep path dataOpt st3 with
            | (st4, some e) => (st4, some e)
            | (st4, Option.none) => addSelfExtraToParentExtra cfg selfKey parentPath path st4
  | InpCrown.fieldC fid =>
    match selfKey with
    | some k => genFieldCrown cfg fid k parentPath parentData parentLen st
    | Option.none => (st, some ⟨PyExc.keyError, []⟩)
  | InpCrown.noneC => (st, Option.none)

/-- The children loop of _gen_dict_crown: dispatch each declared child at
its key, in declared order; a raise in a child's code exits the procedure. -/
def genDictCrownEntries (cfg : Config) (m : List (String × InpCrown))
    (path : List PathElem) (dataOpt : Option Value) (parentLen : Nat)
    (st : RState) : RState × Option Trailed :=
  match m with
  | [] => (st, Option.none)
  | (k, sub) :: rest =>
    match genCrownDispatch cfg sub (some (PathElem.key k)) path dataOpt parentLen st with
    | (st1, some e) => (st1, some e)
    | (st1, Option.none) => genDictCrownEntries cfg rest path dataOpt parentLen st1

/-- The children loop of _gen_list_crown: dispatch each declared child at
its dense index. -/
def genListCrownItems (cfg : Config) (m : List InpCrown) (i : Nat)
    (path : List PathElem) (dataOpt : Option Value) (parentLen : Nat)
    (st : RState) : RState × Option Trailed :=
  match m with
  | [] => (st, Option.none)
  | sub :: rest =>
    match genCrownDispatch cfg sub (some (PathElem.idx i)) path dataOpt parentLen st with
    | (st1, some e) => (st1, some e)
    | (st1, Option.none) => genListCrownItems cfg rest (i + 1) path dataOpt parentLen st1

end

/-- The extra policy attribute of a branch crown (field/none crowns have
none; the root is always a branch crown for layouts that compiled). -/
def rootExtraPolicy : InpCrown → Option ExtraPolicy
  | InpCrown.dictC _ ep => some ep
  | InpCrown.listC _ ep => some ep
  | _ => Option.none

/-- The ExtraCollect branch of _gen_extra_targets_assigment: every target
field receives the root extra holder as raw input, assigned into its field
variable. -/
def extraTargetsLoopCollect (cfg : Config) (tgts : List String) (rootExtra : Value)
    (st : RState) : RState × Option Trailed :=
  match tgts with
  | [] => (st, Option.none)
  | t :: rest =>
    if (cfg.fields.find? (fun f => f.id = t)).isSome then
      match genFieldAssigment cfg [] false t rootExtra st with
      | (st1, some e) => (st1, some e)
      | (st1, Option.none) => extraTargetsLoopCollect cfg rest rootExtra st1
    else (st, some ⟨PyExc.keyError, []⟩)

/-- The non-collect branch of _gen_extra_targets_assigment: only required
target fields get an assignment, with a literal empty dict as raw input;
optional targets are skipped entirely. -/
def extraTargetsLoopEmpty (cfg : Config) (tgts : List String) (st : RState) :
    RState × Option Trailed :=
  match tgts with
  | [] => (st, Option.none)
  | t :: rest =>
    match cfg.fields.find? (fun f => f.id = t) with
    | Option.none => (st, some ⟨PyExc.keyError, []⟩)
    | some fld =>
      if fld.isRequired then
        match genFieldAssigment cfg [] false t (Value.vdict []) st with
        | (st1, some e) => (st1, some e)
        | (st1, Option.none) => extraTargetsLoopEmpty cfg rest st1
      else extraTargetsLoopEmpty cfg rest st

/-- _gen_extra_targets_assigment (lines 506-535): after the tree walk, when
extra_move is ExtraTargets, saturate the targets: if the root crown
collected, each target's loader receives the root extra holder; otherwise
required targets receive an empty dict and optional targets nothing. -/
def genExtraTargetsAssigment (cfg : Config) (st : RState) : RState × Option Trailed :=
  match cfg.extraMove with
  | ExtraMove.noMove => (st, Option.none)
  | ExtraMove.extraTargets tgts =>
    if rootExtraPolicy cfg.crown = some ExtraPolicy.collect then
      match alookup st.extras ([] : List PathElem) with
      | Option.none => (st, some ⟨PyExc.nameError, []⟩)
      | some rootExtra => extraTargetsLoopCollect cfg tgts rootExtra st
    else extraTargetsLoopEmpty cfg tgts st

/-- Observable outcome of one invocation of the generated procedure:
success with the produced field mappings, a raised (possibly decorated)
exception, or the ALL-mode grouped error (LoadExceptionGroup, or
CompatExceptionGroup when has_unexpected_error is set). -/
inductive Outcome
  | success (fieldVals : List (String × Value)) (optFields : List (String × Value))
  | raised (e : Trailed)
  | grouped (errs : List Trailed) (hasUnexpected : Bool)

/-- Outcome plus the loader-invocation log. -/
structure RunResult where
  outcome : Outcome
  calls : List (String × Value)

/-- Semantics of one invocation of the compiled procedure on one input
value, following __call__ (lines 213-266): run the root crown's code, then
the extra-targets assignment, then under ALL raise the grouped error when
any errors were collected. -/
def extract (cfg : Config) (input : Value) : RunResult :=
  match genCrownDispatch cfg cfg.crown Option.none [] (some input) 0 initRState with
  | (st, some e) => ⟨Outcome.raised e, st.calls⟩
  | (st, Option.none) =>
    match genExtraTargetsAssigment cfg st with
    | (st1, some e) => ⟨Outcome.raised e, st1.calls⟩
    | (st1, Option.none) =>
      match cfg.debugTrail with
      | DebugTrail.dtAll =>
        if st1.errors.isEmpty then ⟨Outcome.success st1.fieldVals st1.optFields, st1.calls⟩
        else ⟨Outcome.grouped st1.errors st1.hasUnexpectedError, st1.calls⟩
      | _ => ⟨Outcome.success st1.fieldVals st1.optFields, st1.calls⟩

/-! ## Compile-time state model

GenState as mutated during one code-generation pass, with the compile-time
failure points.  add_key is a contextlib context manager whose yield has no
try/finally, so its restoring statements run only when the body returns
normally; an exception in the body propagates and skips them. -/

/-- The mutable compile-time tracker: GenState._path, _parent_path,
_crown_stack, checked_type_paths and field_id_to_path, plus (a model
observation channel) the ordered list of emitted parent bad-type check
clauses. -/
structure GenSt where
  path : List PathElem
  parentPath : Option (List PathElem)
  crownStack : List InpCrown
  checkedTypePaths : List (List PathElem)
  fieldIdToPath : List (String × List PathElem)
  emittedTypeChecks : List (List PathElem)

/-- Compile-time failures of the generation pass: the TypeError for a
non-branch root crown (__call__ lines 242-243), the KeyError of
GenState.get_field or of the field_loaders lookup, and the ValueError of
the parent_path property when unset. -/
inductive CompileErr
  | typeErrorRootCrown
  | keyErrorField (id : String)
  | keyErrorLoader (id : String)
  | valueErrorParentPath
deriving DecidableEq, Repr

/-- Compile-time effect of _gen_assigment_from_parent_data on the tracker:
reading parent_path (ValueError when unset), and emitting the bad-type
except clause exactly when the parent path is not yet memoised in
checked_type_paths, which is then updated (lines 330-337). -/
def cgenAssigment (st : GenSt) : GenSt × Option CompileErr :=
  match st.parentPath with
  | Option.none => (st, some CompileErr.valueErrorParentPath)
  | some pp =>
    if pp ∈ st.checkedTypePaths then (st, Option.none)
    else ({ st with
              checkedTypePaths := pp :: st.checkedTypePaths
              emittedTypeChecks := st.emittedTypeChecks ++ [pp] }, Option.none)

/-- The statements before the yield of GenState.add_key: set parent_path to
the current path, push the key onto the path and the crown onto the crown
stack. -/
def cgenEnter (sub : InpCrown) (key : PathElem) (st : GenSt) : GenSt :=
  { st with
      parentPath := some st.path
      path := st.path ++ [key]
      crownStack := st.crownStack ++ [sub] }

/-- The statements after the yield of GenState.add_key: pop the crown
stack and restore the previous path and parent path.  As there is no
try/finally around the yield, these run only when the with-body returns
normally. -/
def cgenRestore (past : List PathElem) (pastParent : Option (List PathElem))
    (st : GenSt) : GenSt :=
  { st with crownStack := st.crownStack.dropLast, path := past, parentPath := pastParent }

/-- GenState.get_field: record the current path for the field id (before
the name_to_field lookup that may raise KeyError). -/
def cgenGetField (fid : String) (st : GenSt) : GenSt :=
  { st with fieldIdToPath := aupdate st.fieldIdToPath fid st.path }

mutual

/-- Compile-time walk of _gen_crown_dispatch: enter the add_key region
(push parent_path, path, crown_stack), generate the child's code, and - as
in the source, where add_key has no try/finally around its yield - restore
the previous path state only on a normal exit; a compile-time exception
leaves the tracker as the failing body left it.  Branch crowns read from
the parent (the memo effect), field crowns record field_id_to_path and
resolve the field and its loader. -/
def cgenCrownDispatch (cfg : Config) (sub : InpCrown) (key : PathElem) (st : GenSt) :
    GenSt × Option CompileErr :=
  match sub with
  | InpCrown.dictC m ep =>
    match cgenAssigment (cgenEnter (InpCrown.dictC m ep) key st) with
    | (st1, some e) => (st1, some e)
    | (st1, Option.none) =>
      match cgenDictEntries cfg m st1 with
      | (st2, some e) => (st2, some e)
      | (st2, Option.none) => (cgenRestore st.path st.parentPath st2, Option.none)
  | InpCrown.listC m ep =>
    match cgenAssigment (cgenEnter (InpCrown.listC m ep) key st) with
    | (st1, some e) => (st1, some e)
    | (st1, Option.none) =>
      match cgenListItems cfg m 0 st1 with
      | (st2, some e) => (st2, some e)
      | (st2, Option.none) => (cgenRestore st.path st.parentPath st2, Option.none)
  | InpCrown.fieldC fid =>
    if (cfg.fields.find? (fun f => f.id = fid)).isSome then
      match cgenAssigment (cgenGetField fid (cgenEnter (InpCrown.fieldC fid) key st)) with
      | (st2, some e) => (st2, some e)
      | (st2, Option.none) =>
        if (alookup cfg.fieldLoaders fid).isSome then
          (cgenRestore st.path st.parentPath st2, Option.none)
        else (st2, some (CompileErr.keyErrorLoader fid))
    else (cgenGetField fid (cgenEnter (InpCrown.fieldC fid) key st),
          some (CompileErr.keyErrorField fid))
  | InpCrown.noneC => (cgenRestore st.path st.parentPath (cgenEnter InpCrown.noneC key st), Option.none)

/-- Compile-time children loop of _gen_dict_crown. -/
def cgenDictEntries (cfg : Config) (m : List (String × InpCrown)) (st : GenSt) :
    GenSt × Option CompileErr :=
  match m with
  | [] => (st, Option.none)
  | (k, sub) :: rest =>
    match cgenCrownDispatch cfg sub (PathElem.key k) st with
    | (st1, some e) => (st1, some e)
    | (st1, Option.none) => cgenDictEntries cfg rest st1

/-- Compile-time children loop of _gen_list_crown, enumerating indices. -/
def cgenListItems (cfg : Config) (m : List InpCrown) (i : Nat) (st : GenSt) :
    GenSt × Option CompileErr :=
  match m with
  | [] => (st, Option.none)
  | sub :: rest =>
    match cgenCrownDispatch cfg sub (PathElem.idx i) st with
    | (st1, some e) => (st1, some e)
    | (st1, Option.none) => cgenListItems cfg rest (i + 1) st1

end

/-- Compile-time effects of _gen_extra_targets_assigment: every target id is
resolved in name_to_field; targets that get a field assignment (all of them
when the root collects, only required ones otherwise) also resolve their
loader. -/
def cgenExtraTargetsLoop (cfg : Config) (collectMode : Bool) (tgts : List String)
    (st : GenSt) : GenSt × Option CompileErr :=
  match tgts with
  | [] => (st, Option.none)
  | t :: rest =>
    match cfg.fields.find? (fun f => f.id = t) with
    | Option.none => (st, some (CompileErr.keyErrorField t))
    | some fld =>
      if collectMode || fld.isRequired then
        if (alookup cfg.fieldLoaders t).isSome then cgenExtraTargetsLoop cfg collectMode rest st
        else (st, some (CompileErr.keyErrorLoader t))
      else cgenExtraTargetsLoop cfg collectMode rest st

/-- One full code-generation pass, following __call__: dispatch the root
crown (raising TypeError for a field/none root before anything else), then
generate the extra-targets assignment. -/
def cgenRun (cfg : Config) : GenSt × Option CompileErr :=
  let st0 : GenSt := ⟨[], Option.none, [cfg.crown], [], [], []⟩
  let walk : GenSt × Option CompileErr :=
    match cfg.crown with
    | InpCrown.dictC m _ => cgenDictEntries cfg m st0
    | InpCrown.listC m _ => cgenListItems cfg m 0 st0
    | _ => (st0, some CompileErr.typeErrorRootCrown)
  match walk with
  | (st1, some e) => (st1, some e)
  | (st1, Option.none) =>
    match cfg.extraMove with
    | ExtraMove.noMove => (st1, Option.none)
    | ExtraMove.extraTargets tgts =>
      cgenExtraTargetsLoop cfg
        (decide (rootExtraPolicy cfg.crown = some ExtraPolicy.collect)) tgts st1

/-- The compiled procedure: produced only when the generation pass
succeeds; a compile-time failure yields no procedure at all, so no input is
ever processed under such a layout. -/
def compiledProc (cfg : Config) : Option (Value → RunResult) :=
  match (cgenRun cfg).2 with
  | Option.none => some (extract cfg)
  | some _ => Option.none

/-! ## Association-list lemmas -/

theorem alookup_aupdate_self {κ : Type} [DecidableEq κ] {β : Type}
    (m : List (κ × β)) (k : κ) (v : β) : alookup (aupdate m k v) k = some v := by
  induction m with
  | nil => simp [alookup, aupdate]
  | cons p rest ih =>
    obtain ⟨k1, v1⟩ := p
    by_cases h : k1 = k
    · simp [alookup, aupdate, h]
    · simp [alookup, aupdate, h, ih]

theorem aupdate_aupdate_same {κ : Type} [DecidableEq κ] {β : Type}
    (m : List (κ × β)) (k : κ) (v1 v2 : β) :
    aupdate (aupdate m k v1) k v2 = aupdate m k v2 := by
  induction m with
  | nil => simp [aupdate]
  | cons p rest ih =>
    obtain ⟨k1, w⟩ := p
    by_cases h : k1 = k
    · simp [aupdate, h]
    · simp [aupdate, h, ih]

theorem aupdate_of_alookup_none {κ : Type} [DecidableEq κ] {β : Type}
    (m : List (κ × β)) (k : κ) (v : β) (h : alookup m k = Option.none) :
    aupdate m k v = m ++ [(k, v)] := by
  induction m with
  | nil => simp [aupdate]
  | cons p rest ih =>
    obtain ⟨k1, w⟩ := p
    by_cases hk : k1 = k
    · simp [alookup, hk] at h
    · simp [alookup, hk] at h
      simp [aupdate, hk, ih h]

theorem alookup_append {κ : Type} [DecidableEq κ] {β : Type}
    (m1 m2 : List (κ × β)) (k : κ) :
    alookup (m1 ++ m2) k =
      match alookup m1 k with
      | some v => some v
      | Option.none => alookup m2 k := by
  induction m1 with
  | nil => simp [alookup]
  | cons p rest ih =>
    obtain ⟨k1, w⟩ := p
    by_cases hk : k1 = k
    · simp [alookup, hk]
    · simp [alookup, hk, ih]

theorem alookup_of_mem_keys {κ : Type} [DecidableEq κ] {β : Type}
    (m : List (κ × β)) (k : κ) (h : k ∈ m.map Prod.fst) :
    ∃ v, alookup m k = some v := by
  induction m with
  | nil => simp at h
  | cons p rest ih =>
    obtain ⟨k1, w⟩ := p
    by_cases hk : k1 = k
    · exact ⟨w, by simp [alookup, hk]⟩
    · rw [List.map_cons, List.mem_cons] at h
      rcases h with h | h
      · exact absurd h.symm hk
      · obtain ⟨v, hv⟩ := ih h
        exact ⟨v, by simp [alookup, hk, hv]⟩

/-- A convenient total read used only where presence is separately known. -/
def lookupD (m : List (String × Value)) (k : String) : Value :=
  (alookup m k).getD Value.vnone

theorem withTrail_nil (dt : DebugTrail) (e : PyExc) : withTrail dt e [] = ⟨e, []⟩ := by
  cases dt <;> rfl

/-! ## Claim C10: a non-branch root crown fails compilation -/

/-- Claim C10: for every name layout whose root crown is a FieldCrown or a
NoneCrown, the generation pass itself fails with a TypeError before any
procedure is produced, so no input is ever processed under such a layout. -/
theorem claim_C10_non_branch_root_fails_compilation
    (em : ExtraMove) (dt : DebugTrail) (sc : Bool) (fl : List InputField)
    (ld : List (String × FieldLoader)) (id : String) :
    (cgenRun ⟨InpCrown.fieldC id, em, dt, sc, fl, ld⟩).2 = some CompileErr.typeErrorRootCrown
    ∧ compiledProc ⟨InpCrown.fieldC id, em, dt, sc, fl, ld⟩ = Option.none
    ∧ (cgenRun ⟨InpCrown.noneC, em, dt, sc, fl, ld⟩).2 = some CompileErr.typeErrorRootCrown
    ∧ compiledProc ⟨InpCrown.noneC, em, dt, sc, fl, ld⟩ = Option.none := by
  refine ⟨rfl, ?_, rfl, ?_⟩ <;> simp [compiledProc, cgenRun]

/-! ## Claim C7: optional versus required missing key -/

/-- The one-field dict-crown layout used for claim C7. -/
def cfgC7 (k : String) (req : Bool) : Config :=
  ⟨InpCrown.dictC [(k, InpCrown.fieldC "f")] ExtraPolicy.ignore,
   ExtraMove.noMove, DebugTrail.dtNone, false,
   [⟨"f", req⟩], [("f", FieldLoader.asIsStub)]⟩

/-- Claim C7: for a field referenced by a FieldCrown under a dict crown,
when its key is absent from the input: an optional field leaves extraction
successful with the field simply absent from the result mappings, while a
required field fails extraction with MissingRequiredFields naming exactly
that key. -/
theorem claim_C7_optional_vs_required_missing_key
    (k : String) (m : List (String × Value)) (habs : alookup m k = Option.none) :
    extract (cfgC7 k false) (Value.vdict m) = ⟨Outcome.success [] [], []⟩
    ∧ extract (cfgC7 k true) (Value.vdict m)
      = ⟨Outcome.raised ⟨PyExc.noRequiredFieldsError [k], []⟩, []⟩ := by
  constructor <;>
    simp [extract, cfgC7, genCrownDispatch, genDictCrownEntries, genFieldCrown,
      genAssigmentFromParentData, assignCore, pyLookup, habs, lookupErrorOf,
      dictExtraPolicyStep, addSelfExtraToParentExtra, canCollectExtra,
      genExtraTargetsAssigment, withTrail, initRState, notFoundErrorOf]

/-- Witness for claim C7 at a concrete input missing the key "a". -/
theorem claim_C7_witness :
    extract (cfgC7 "a" false) (Value.vdict [("b", Value.vint 1)]) = ⟨Outcome.success [] [], []⟩
    ∧ extract (cfgC7 "a" true) (Value.vdict [("b", Value.vint 1)])
      = ⟨Outcome.raised ⟨PyExc.noRequiredFieldsError ["a"], []⟩, []⟩ :=
  claim_C7_optional_vs_required_missing_key "a" [("b", Value.vint 1)] rfl

/-! ## Claim C3: strict coercion rejects strings at list-crown positions -/

/-- A layout placing a list crown under key "k", with strict coercion. -/
def cfgC3w : Config :=
  ⟨InpCrown.dictC [("k", InpCrown.listC [] ExtraPolicy.ignore)] ExtraPolicy.ignore,
   ExtraMove.noMove, DebugTrail.dtFirst, true, [], []⟩

/-- Claim C3: with strict_coercion enabled, a string value at a list-shaped
crown position fails with WrongContainerType(list) and the characters are
never iterated as items: at the root for every layout, and at any non-root
list crown reached with a string value - no loader is invoked and no error
is collected, the decorated TypeLoadError(list) is raised at once. -/
theorem claim_C3_strict_coercion_rejects_str_at_list_crown :
    (∀ (m : List InpCrown) (ep : ExtraPolicy) (em : ExtraMove) (dt : DebugTrail)
       (fl : List InputField) (ld : List (String × FieldLoader)) (s : String),
       extract ⟨InpCrown.listC m ep, em, dt, true, fl, ld⟩ (Value.vstr s)
         = ⟨Outcome.raised ⟨PyExc.typeLoadError TypeKind.listKind, []⟩, []⟩)
    ∧ (∀ (cfg : Config) (m : List InpCrown) (ep : ExtraPolicy) (k : String)
         (parentPath : List PathElem) (parentData : Option Value) (parentLen : Nat)
         (st : RState) (s : String),
         cfg.strictCoercion = true →
         pyLookup parentData (PathElem.key k) = Except.ok (Value.vstr s) →
         ∃ st2, genCrownDispatch cfg (InpCrown.listC m ep) (some (PathElem.key k))
             parentPath parentData parentLen st
           = (st2, some (withTrail cfg.debugTrail (PyExc.typeLoadError TypeKind.listKind)
               (parentPath ++ [PathElem.key k])))
           ∧ st2.calls = st.calls ∧ st2.errors = st.errors) := by
  constructor
  · intro m ep em dt fl ld s
    simp [extract, genCrownDispatch, listStrictCoercionCheck, withTrail_nil, initRState]
  · intro cfg m ep k parentPath parentData parentLen st s hsc hlk
    by_cases hc : parentPath ∈ st.checkedTypePaths
    · refine ⟨st, ?_, rfl, rfl⟩
      simp [genCrownDispatch, genAssigmentFromParentData, hc, assignCore, hlk,
        listStrictCoercionCheck, hsc]
    · refine ⟨{ st with checkedTypePaths := parentPath :: st.checkedTypePaths }, ?_, rfl, rfl⟩
      simp [genCrownDispatch, genAssigmentFromParentData, hc, assignCore, hlk,
        listStrictCoercionCheck, hsc]

/-- Witness for claim C3 at a concrete nested position. -/
theorem claim_C3_witness :
    ∃ st2, genCrownDispatch cfgC3w (InpCrown.listC [] ExtraPolicy.ignore)
        (some (PathElem.key "k")) [] (some (Value.vdict [("k", Value.vstr "ab")])) 0 initRState
      = (st2, some (withTrail cfgC3w.debugTrail (PyExc.typeLoadError TypeKind.listKind)
          ([] ++ [PathElem.key "k"])))
      ∧ st2.calls = initRState.calls ∧ st2.errors = initRState.errors :=
  claim_C3_strict_coercion_rejects_str_at_list_crown.2 cfgC3w [] ExtraPolicy.ignore "k"
    [] (some (Value.vdict [("k", Value.vstr "ab")])) 0 initRState "ab" rfl rfl

/-! ## Claim C8: extra targets under a non-collecting root -/

/-- The empty-dict-crown layout with extra targets used for claim C8: one
required target "ft" and one optional target "fo". -/
def cfgC8 (ep : ExtraPolicy) (g h : Value → Except PyExc Value) : Config :=
  ⟨InpCrown.dictC [] ep, ExtraMove.extraTargets ["ft", "fo"], DebugTrail.dtNone, false,
   [⟨"ft", true⟩, ⟨"fo", false⟩],
   [("ft", FieldLoader.loaderFn g), ("fo", FieldLoader.loaderFn h)]⟩

/-- Claim C8: with extra_move Targets and a non-collecting root policy
(Ignore or Forbid), the required target's loader is invoked - for every
input mapping and every loader - with exactly the literal empty mapping as
raw input (no positional read, no lookup-failure path), and the optional
target's loader is never invoked. -/
theorem claim_C8_targets_without_collect_get_empty_dict
    (g h : Value → Except PyExc Value) (m : List (String × Value)) :
    (extract (cfgC8 ExtraPolicy.ignore g h) (Value.vdict m)).calls = [("ft", Value.vdict [])]
    ∧ (extract (cfgC8 ExtraPolicy.forbid g h) (Value.vdict [])).calls
      = [("ft", Value.vdict [])] := by
  constructor <;>
  · cases hg : g (Value.vdict []) <;>
      simp [extract, cfgC8, genCrownDispatch, genDictCrownEntries, dictEmptyMapCheck,
        dictExtraPolicyStep, addSelfExtraToParentExtra, canCollectExtra,
        genExtraTargetsAssigment, rootExtraPolicy, extraTargetsLoopEmpty,
        genFieldAssigment, alookup, assignField, hg, initRState, pyKeySet,
        emitError, List.find?, pySetItem]

/-! ## Claim C1: wrong container type under debug-trail ALL -/

/-- An identity loader that is a real callable (not the inlined as_is
stub), so that its invocations appear in the call log. -/
def idLoader : FieldLoader := FieldLoader.loaderFn (fun v => Except.ok v)

/-- The three-children layout used for claim C1, in debug-trail ALL. -/
def cfgC1 : Config :=
  ⟨InpCrown.dictC [("x", InpCrown.fieldC "f1"),
     ("y", InpCrown.dictC [("z", InpCrown.fieldC "f2")] ExtraPolicy.ignore),
     ("b", InpCrown.fieldC "f4")] ExtraPolicy.ignore,
   ExtraMove.noMove, DebugTrail.dtAll, false,
   [⟨"f1", true⟩, ⟨"f2", true⟩, ⟨"f4", true⟩],
   [("f1", idLoader), ("f2", idLoader), ("f4", idLoader)]⟩

/-- Counterexample to claim C1: in debug-trail ALL, the wrong-container-type
failure at the nested container "y" yields a single raised decorated
TypeLoadError(dict); the sibling subtree "b" is never processed (its loader
is absent from the call log) and no grouped error is produced. -/
theorem claim_C1_counterexample :
    extract cfgC1 (Value.vdict [("x", Value.vint 1), ("y", Value.vint 5), ("b", Value.vint 2)])
    = ⟨Outcome.raised ⟨PyExc.typeLoadError TypeKind.dictKind, [PathElem.key "y"]⟩,
       [("f1", Value.vint 1)]⟩ := rfl

/-- Amended claim C1: in debug-trail ALL, a wrong-container-type failure at
a container node aborts the entire extraction immediately with a single
trail-decorated WrongContainerType error: descent into that container is
aborted, but subsequent sibling subtrees are not processed either, and the
errors collected so far are discarded instead of being reported in a
grouped error. -/
theorem claim_C1_amended_wrong_type_aborts_whole_extraction (a b : Value) (n : Int) :
    extract cfgC1 (Value.vdict [("x", a), ("y", Value.vint n), ("b", b)])
    = ⟨Outcome.raised ⟨PyExc.typeLoadError TypeKind.dictKind, [PathElem.key "y"]⟩,
       [("f1", a)]⟩ := by
  simp [extract, cfgC1, idLoader, genCrownDispatch, genDictCrownEntries, genFieldCrown,
    genAssigmentFromParentData, assignCore, pyLookup, alookup, genFieldAssigment,
    assignField, badTypeHit, lookupErrorOf, badTypeLoadErrorOf, withTrail, initRState,
    List.find?, canCollectExtra]

/-! ## Claim C6: ExtraForbid reports exactly the unexpected key -/

/-- The layout of the spec's worked example, both crowns Forbid, in
debug-trail FIRST. -/
def cfgC6 : Config :=
  ⟨InpCrown.dictC [("x", InpCrown.fieldC "f1"),
     ("y", InpCrown.dictC [("z", InpCrown.fieldC "f2")] ExtraPolicy.forbid)] ExtraPolicy.forbid,
   ExtraMove.noMove, DebugTrail.dtFirst, false,
   [⟨"f1", true⟩, ⟨"f2", true⟩],
   [("f1", FieldLoader.asIsStub), ("f2", FieldLoader.asIsStub)]⟩

/-- Claim C6: under ExtraForbid, an otherwise valid input carrying exactly
one undeclared key fails with ExtraFieldsPresent listing exactly that key;
when the offending crown is nested, the error is decorated with the path of
that crown node (here ("y",)), and at the root nothing is attached. -/
theorem claim_C6_extra_forbid_reports_exact_key_with_path :
    (∀ (w : String) (a b c : Value), w ≠ "z" →
      extract cfgC6 (Value.vdict [("x", a), ("y", Value.vdict [("z", b), (w, c)])])
      = ⟨Outcome.raised ⟨PyExc.extraFieldsError [w], [PathElem.key "y"]⟩, []⟩)
    ∧ (∀ (u : String) (a c d : Value), u ≠ "x" → u ≠ "y" →
      extract cfgC6 (Value.vdict [("x", a), ("y", Value.vdict [("z", c)]), (u, d)])
      = ⟨Outcome.raised ⟨PyExc.extraFieldsError [u], []⟩, []⟩) := by
  constructor
  · intro w a b c hw
    have hzw : ("z" : String) ≠ w := fun h => hw h.symm
    simp [extract, cfgC6, genCrownDispatch, genDictCrownEntries, genFieldCrown,
      genAssigmentFromParentData, assignCore, pyLookup, alookup, genFieldAssigment,
      assignField, dictExtraPolicyStep, pyKeySet, List.dedup_cons_of_not_mem,
      hw, hzw, emitError, withTrail, initRState, List.find?, canCollectExtra,
      addSelfExtraToParentExtra, genExtraTargetsAssigment]
  · intro u a c d hux huy
    have hxu : ("x" : String) ≠ u := fun h => hux h.symm
    have hyu : ("y" : String) ≠ u := fun h => huy h.symm
    simp [extract, cfgC6, genCrownDispatch, genDictCrownEntries, genFieldCrown,
      genAssigmentFromParentData, assignCore, pyLookup, alookup, genFieldAssigment,
      assignField, dictExtraPolicyStep, pyKeySet, List.dedup_cons_of_not_mem,
      hux, huy, hxu, hyu, emitError, withTrail, initRState, List.find?, canCollectExtra,
      addSelfExtraToParentExtra, genExtraTargetsAssigment]

/-- Witness for claim C6 at the spec's concrete example input. -/
theorem claim_C6_witness :
    extract cfgC6 (Value.vdict [("x", Value.vint 1),
      ("y", Value.vdict [("z", Value.vint 2), ("w", Value.vint 3)])])
    = ⟨Outcome.raised ⟨PyExc.extraFieldsError ["w"], [PathElem.key "y"]⟩, []⟩ :=
  claim_C6_extra_forbid_reports_exact_key_with_path.1 "w" (Value.vint 1) (Value.vint 2)
    (Value.vint 3) (by decide)

/-! ## Claim C5: list length checks -/

/-- The list-crown layout family used for claim C5: n placeholder children. -/
def cfgC5 (ep : ExtraPolicy) (n : Nat) : Config :=
  ⟨InpCrown.listC (List.replicate n InpCrown.noneC) ep, ExtraMove.noMove,
   DebugTrail.dtNone, false, [], []⟩

/-- None-crown children generate no code, so the children loop is inert. -/
theorem genListCrownItems_replicate_none (cfg : Config) (n : Nat) :
    ∀ (i : Nat) (path : List PathElem) (dataOpt : Option Value) (plen : Nat) (st : RState),
    genListCrownItems cfg (List.replicate n InpCrown.noneC) i path dataOpt plen st
      = (st, Option.none) := by
  induction n with
  | zero => intro i path dataOpt plen st; simp [List.replicate, genListCrownItems]
  | succ n ih =>
    intro i path dataOpt plen st
    simp [List.replicate_succ, genListCrownItems, genCrownDispatch, ih]

/-- Claim C5: for a list crown with n declared children, under ExtraForbid
an input sequence of length n passes the length check, a shorter one fails
with MissingRequiredItems(n) and a longer one with ExtraItemsPresent(n);
under a non-Forbid policy only a shorter input is an error and trailing
extra items are silently accepted. -/
theorem claim_C5_list_length_checks (n : Nat) (xs : List Value) :
    ((extract (cfgC5 ExtraPolicy.forbid n) (Value.vlist xs)).outcome =
      if xs.length = n then Outcome.success [] []
      else if xs.length < n then Outcome.raised ⟨PyExc.noRequiredItemsError n, []⟩
      else Outcome.raised ⟨PyExc.extraItemsError n, []⟩)
    ∧ ∀ ep, ep ≠ ExtraPolicy.forbid →
      (extract (cfgC5 ep n) (Value.vlist xs)).outcome =
        if xs.length < n then Outcome.raised ⟨PyExc.noRequiredItemsError n, []⟩
        else Outcome.success [] [] := by
  constructor
  · by_cases h1 : xs.length = n
    · simp [extract, cfgC5, genCrownDispatch, genListCrownItems_replicate_none,
        listEmptyMapCheck, pyIsSequence, listLenCheck, pyLen, emitError, withTrail,
        canCollectExtra, addSelfExtraToParentExtra, genExtraTargetsAssigment,
        initRState, ite_self, h1]
    · by_cases h2 : xs.length < n
      · simp [extract, cfgC5, genCrownDispatch, genListCrownItems_replicate_none,
          listEmptyMapCheck, pyIsSequence, listLenCheck, pyLen, emitError, withTrail,
          canCollectExtra, addSelfExtraToParentExtra, genExtraTargetsAssigment,
          initRState, ite_self, h1, h2]
      · simp [extract, cfgC5, genCrownDispatch, genListCrownItems_replicate_none,
          listEmptyMapCheck, pyIsSequence, listLenCheck, pyLen, emitError, withTrail,
          canCollectExtra, addSelfExtraToParentExtra, genExtraTargetsAssigment,
          initRState, ite_self, h1, h2]
  · intro ep hep
    cases ep with
    | forbid => exact absurd rfl hep
    | collect =>
      by_cases h2 : xs.length < n <;>
        simp [extract, cfgC5, genCrownDispatch, genListCrownItems_replicate_none,
          listEmptyMapCheck, pyIsSequence, listLenCheck, pyLen, emitError, withTrail,
          canCollectExtra, addSelfExtraToParentExtra, genExtraTargetsAssigment,
          initRState, ite_self, h2]
    | ignore =>
      by_cases h2 : xs.length < n <;>
        simp [extract, cfgC5, genCrownDispatch, genListCrownItems_replicate_none,
          listEmptyMapCheck, pyIsSequence, listLenCheck, pyLen, emitError, withTrail,
          canCollectExtra, addSelfExtraToParentExtra, genExtraTargetsAssigment,
          initRState, ite_self, h2]

/-- Witness for claim C5: the spec's 3-children example at lengths 3, 2 and
4 under Forbid, and a trailing extra item accepted under Ignore. -/
theorem claim_C5_witness :
    (extract (cfgC5 ExtraPolicy.forbid 3)
      (Value.vlist [Value.vint 1, Value.vint 2, Value.vint 3])).outcome
      = Outcome.success [] []
    ∧ (extract (cfgC5 ExtraPolicy.forbid 3) (Value.vlist [Value.vint 1, Value.vint 2])).outcome
      = Outcome.raised ⟨PyExc.noRequiredItemsError 3, []⟩
    ∧ (extract (cfgC5 ExtraPolicy.forbid 3)
        (Value.vlist [Value.vint 1, Value.vint 2, Value.vint 3, Value.vint 4])).outcome
      = Outcome.raised ⟨PyExc.extraItemsError 3, []⟩
    ∧ (extract (cfgC5 ExtraPolicy.ignore 3)
        (Value.vlist [Value.vint 1, Value.vint 2, Value.vint 3, Value.vint 4])).outcome
      = Outcome.success [] [] := by
  refine ⟨?_, ?_, ?_, ?_⟩
  · exact ((claim_C5_list_length_checks 3 [Value.vint 1, Value.vint 2, Value.vint 3]).1).trans rfl
  · exact ((claim_C5_list_length_checks 3 [Value.vint 1, Value.vint 2]).1).trans rfl
  · exact ((claim_C5_list_length_checks 3
      [Value.vint 1, Value.vint 2, Value.vint 3, Value.vint 4]).1).trans rfl
  · exact (((claim_C5_list_length_checks 3
      [Value.vint 1, Value.vint 2, Value.vint 3, Value.vint 4]).2
      ExtraPolicy.ignore (by decide)).trans rfl)

/-! ## Claim C4: add_key state restoration -/

/-- cgenAssigment only touches the memo fields, never path, parent path or
the crown stack. -/
theorem cgenAssigment_frame (st : GenSt) :
    (cgenAssigment st).1.path = st.path ∧ (cgenAssigment st).1.parentPath = st.parentPath
    ∧ (cgenAssigment st).1.crownStack = st.crownStack := by
  cases hp : st.parentPath with
  | none => simp [cgenAssigment, hp]
  | some pp => by_cases h : pp ∈ st.checkedTypePaths <;> simp [cgenAssigment, hp, h]

/-- On every normal (exception-free) exit, the compile-time walk leaves
path, parent path and crown stack exactly as it found them - jointly for
the dispatcher and the two children loops. -/
theorem cgen_success_frame (cfg : Config) :
    (∀ (sub : InpCrown) (key : PathElem) (st : GenSt), ∀ st2,
        cgenCrownDispatch cfg sub key st = (st2, Option.none) →
        st2.path = st.path ∧ st2.parentPath = st.parentPath ∧ st2.crownStack = st.crownStack)
    ∧ (∀ (m : List InpCrown) (i : Nat) (st : GenSt), ∀ st2,
        cgenListItems cfg m i st = (st2, Option.none) →
        st2.path = st.path ∧ st2.parentPath = st.parentPath ∧ st2.crownStack = st.crownStack)
    ∧ (∀ (m : List (String × InpCrown)) (st : GenSt), ∀ st2,
        cgenDictEntries cfg m st = (st2, Option.none) →
        st2.path = st.path ∧ st2.parentPath = st.parentPath ∧ st2.crownStack = st.crownStack) := by
  apply cgenCrownDispatch.mutual_induct cfg
  · intro key st m ep st2 e hA st2x hx
    simp [cgenCrownDispatch, hA] at hx
  · intro key st m ep st2 hA st2_1 e hE ih st2x hx
    simp [cgenCrownDispatch, hA, hE] at hx
  · intro key st m ep st2 hA st2_1 hE ih st2x hx
    simp [cgenCrownDispatch, hA, hE] at hx
    have h4 := cgenAssigment_frame (cgenEnter (InpCrown.dictC m ep) key st)
    rw [hA] at h4
    have h5 := ih st2_1 hE
    have hcs : st2.crownStack = st.crownStack ++ [InpCrown.dictC m ep] := by
      simpa [cgenEnter] using h4.2.2
    subst hx
    refine ⟨by simp [cgenRestore], by simp [cgenRestore], ?_⟩
    simp [cgenRestore, h5.2.2, hcs, List.dropLast_concat]
  · intro key st m ep st2 e hA st2x hx
    simp [cgenCrownDispatch, hA] at hx
  · intro key st m ep st2 hA st2_1 e hE ih st2x hx
    simp [cgenCrownDispatch, hA, hE] at hx
  · intro key st m ep st2 hA st2_1 hE ih st2x hx
    simp [cgenCrownDispatch, hA, hE] at hx
    have h4 := cgenAssigment_frame (cgenEnter (InpCrown.listC m ep) key st)
    rw [hA] at h4
    have h5 := ih st2_1 hE
    have hcs : st2.crownStack = st.crownStack ++ [InpCrown.listC m ep] := by
      simpa [cgenEnter] using h4.2.2
    subst hx
    refine ⟨by simp [cgenRestore], by simp [cgenRestore], ?_⟩
    simp [cgenRestore, h5.2.2, hcs, List.dropLast_concat]
  · intro key st fid hfind st2 e hA st2x hx
    simp [cgenCrownDispatch, hfind, hA] at hx
  · intro key st fid hfind st2 hA hld st2x hx
    simp [cgenCrownDispatch, hfind, hA, hld] at hx
    have h4 := cgenAssigment_frame (cgenGetField fid (cgenEnter (InpCrown.fieldC fid) key st))
    rw [hA] at h4
    have hcs : st2.crownStack = st.crownStack ++ [InpCrown.fieldC fid] := by
      simpa [cgenGetField, cgenEnter] using h4.2.2
    subst hx
    refine ⟨by simp [cgenRestore], by simp [cgenRestore], ?_⟩
    simp [cgenRestore, hcs, List.dropLast_concat]
  · intro key st fid hfind st2 hA hld st2x hx
    simp [cgenCrownDispatch, hfind, hA, hld] at hx
  · intro key st fid hfind st2x hx
    simp [cgenCrownDispatch, hfind] at hx
  · intro key st st2x hx
    simp [cgenCrownDispatch] at hx
    subst hx
    exact ⟨by simp [cgenRestore], by simp [cgenRestore],
      by simp [cgenRestore, cgenEnter]⟩
  · intro st st2x hx
    simp [cgenDictEntries] at hx
    subst hx
    exact ⟨rfl, rfl, rfl⟩
  · intro st k sub rest st2 e hd ih1 st2x hx
    simp [cgenDictEntries, hd] at hx
  · intro st k sub rest st2 hd ih1 ih3 st2x hx
    simp only [cgenDictEntries, hd] at hx
    have h1 := ih1 st2 hd
    have h2 := ih3 st2x hx
    exact ⟨h2.1.trans h1.1, h2.2.1.trans h1.2.1, h2.2.2.trans h1.2.2⟩
  · intro i st st2x hx
    simp [cgenListItems] at hx
    subst hx
    exact ⟨rfl, rfl, rfl⟩
  · intro i st sub rest st2 e hd ih1 st2x hx
    simp [cgenListItems, hd] at hx
  · intro i st sub rest st2 hd ih1 ih2 st2x hx
    simp only [cgenListItems, hd] at hx
    have h1 := ih1 st2 hd
    have h2 := ih2 st2x hx
    exact ⟨h2.1.trans h1.1, h2.2.1.trans h1.2.1, h2.2.2.trans h1.2.2⟩

/-- The layout used to exhibit the compile-time failure inside an add_key
region: the crown references a field id absent from the shape. -/
def cfgGhost : Config :=
  ⟨InpCrown.dictC [("a", InpCrown.fieldC "ghost")] ExtraPolicy.ignore,
   ExtraMove.noMove, DebugTrail.dtNone, false, [], []⟩

/-- Counterexample to claim C4: when compilation of a child fails early
with an exception (here the get_field KeyError for an unknown field id),
the add_key region is exited without restoring the tracker: the whole
generation pass ends with the path still pointing into the child, not
restored to its prior (empty) value. -/
theorem claim_C4_counterexample :
    (cgenRun cfgGhost).2 = some (CompileErr.keyErrorField "ghost")
    ∧ (cgenRun cfgGhost).1.path = [PathElem.key "a"]
    ∧ (cgenRun cfgGhost).1.path ≠ [] := by
  refine ⟨rfl, rfl, ?_⟩
  decide

/-- Amended claim C4: the path, parent-path and crown-stack state of the
tracker is restored to its prior value on every normal exit of an
enter-child region; when compilation of the child fails early with an
exception, the state is not restored (the exception aborts the whole
generation pass, whose tracker is per-pass and then discarded). -/
theorem claim_C4_amended_state_restored_on_normal_exit (cfg : Config) (sub : InpCrown)
    (key : PathElem) (st st2 : GenSt)
    (h : cgenCrownDispatch cfg sub key st = (st2, Option.none)) :
    st2.path = st.path ∧ st2.parentPath = st.parentPath ∧ st2.crownStack = st.crownStack :=
  (cgen_success_frame cfg).1 sub key st st2 h

/-- Witness for the amended claim C4 at a concrete normal exit. -/
theorem claim_C4_witness :
    ((cgenCrownDispatch cfgGhost InpCrown.noneC (PathElem.key "a")
        ⟨[], Option.none, [cfgGhost.crown], [], [], []⟩).1).path = []
    ∧ ((cgenCrownDispatch cfgGhost InpCrown.noneC (PathElem.key "a")
        ⟨[], Option.none, [cfgGhost.crown], [], [], []⟩).1).crownStack = [cfgGhost.crown] := by
  have h := claim_C4_amended_state_restored_on_normal_exit cfgGhost InpCrown.noneC
    (PathElem.key "a") ⟨[], Option.none, [cfgGhost.crown], [], [], []⟩
    ((cgenCrownDispatch cfgGhost InpCrown.noneC (PathElem.key "a")
        ⟨[], Option.none, [cfgGhost.crown], [], [], []⟩).1) rfl
  exact ⟨h.1, h.2.2⟩

/-! ## Claim C9: the parent type check is planned at most once per path -/

/-- Plan-construction invariant: the emitted parent bad-type check clauses
are pairwise distinct, and every emitted path is memoised in
checked_type_paths. -/
def cgenInv (st : GenSt) : Prop :=
  st.emittedTypeChecks.Nodup ∧ ∀ p ∈ st.emittedTypeChecks, p ∈ st.checkedTypePaths

theorem cgenInv_enter (sub : InpCrown) (key : PathElem) (st : GenSt) :
    cgenInv (cgenEnter sub key st) ↔ cgenInv st := by
  simp [cgenInv, cgenEnter]

theorem cgenInv_restore (a : List PathElem) (b : Option (List PathElem)) (st : GenSt) :
    cgenInv (cgenRestore a b st) ↔ cgenInv st := by
  simp [cgenInv, cgenRestore]

theorem cgenInv_getField (fid : String) (st : GenSt) :
    cgenInv (cgenGetField fid st) ↔ cgenInv st := by
  simp [cgenInv, cgenGetField]

/-- The memoised emission step preserves the invariant: a clause is emitted
only for a path not yet memoised, hence never twice. -/
theorem cgenAssigment_inv (st : GenSt) (h : cgenInv st) : cgenInv (cgenAssigment st).1 := by
  cases hp : st.parentPath with
  | none => simpa [cgenAssigment, hp] using h
  | some pp =>
    by_cases hc : pp ∈ st.checkedTypePaths
    · simpa [cgenAssigment, hp, hc] using h
    · have hnp : pp ∉ st.emittedTypeChecks := fun hin => hc (h.2 pp hin)
      refine ⟨?_, ?_⟩
      · simp [cgenAssigment, hp, hc, List.nodup_append, h.1, hnp]
      · intro p hpm
        simp [cgenAssigment, hp, hc] at hpm ⊢
        rcases hpm with hpm | hpm
        · exact Or.inr (h.2 p hpm)
        · exact Or.inl hpm

/-- The invariant holds after the compile-time walk of any crown subtree,
on every exit - jointly for the dispatcher and the two children loops. -/
theorem cgen_inv_all (cfg : Config) :
    (∀ (sub : InpCrown) (key : PathElem) (st : GenSt), cgenInv st →
      cgenInv (cgenCrownDispatch cfg sub key st).1)
    ∧ (∀ (m : List InpCrown) (i : Nat) (st : GenSt), cgenInv st →
      cgenInv (cgenListItems cfg m i st).1)
    ∧ (∀ (m : List (String × InpCrown)) (st : GenSt), cgenInv st →
      cgenInv (cgenDictEntries cfg m st).1) := by
  apply cgenCrownDispatch.mutual_induct cfg
  · intro key st m ep st2 e hA hinv
    have h2 := cgenAssigment_inv (cgenEnter (InpCrown.dictC m ep) key st)
      ((cgenInv_enter _ _ _).mpr hinv)
    rw [hA] at h2
    simpa [cgenCrownDispatch, hA] using h2
  · intro key st m ep st2 hA st2_1 e hE ih hinv
    have h2 := cgenAssigment_inv (cgenEnter (InpCrown.dictC m ep) key st)
      ((cgenInv_enter _ _ _).mpr hinv)
    rw [hA] at h2
    have h3 := ih h2
    rw [hE] at h3
    simpa [cgenCrownDispatch, hA, hE] using h3
  · intro key st m ep st2 hA st2_1 hE ih hinv
    have h2 := cgenAssigment_inv (cgenEnter (InpCrown.dictC m ep) key st)
      ((cgenInv_enter _ _ _).mpr hinv)
    rw [hA] at h2
    have h3 := ih h2
    rw [hE] at h3
    simp only [cgenCrownDispatch, hA, hE]
    exact (cgenInv_restore _ _ _).mpr h3
  · intro key st m ep st2 e hA hinv
    have h2 := cgenAssigment_inv (cgenEnter (InpCrown.listC m ep) key st)
      ((cgenInv_enter _ _ _).mpr hinv)
    rw [hA] at h2
    simpa [cgenCrownDispatch, hA] using h2
  · intro key st m ep st2 hA st2_1 e hE ih hinv
    have h2 := cgenAssigment_inv (cgenEnter (InpCrown.listC m ep) key st)
      ((cgenInv_enter _ _ _).mpr hinv)
    rw [hA] at h2
    have h3 := ih h2
    rw [hE] at h3
    simpa [cgenCrownDispatch, hA, hE] using h3
  · intro key st m ep st2 hA st2_1 hE ih hinv
    have h2 := cgenAssigment_inv (cgenEnter (InpCrown.listC m ep) key st)
      ((cgenInv_enter _ _ _).mpr hinv)
    rw [hA] at h2
    have h3 := ih h2
    rw [hE] at h3
    simp only [cgenCrownDispatch, hA, hE]
    exact (cgenInv_restore _ _ _).mpr h3
  · intro key st fid hfind st2 e hA hinv
    have h2 := cgenAssigment_inv (cgenGetField fid (cgenEnter (InpCrown.fieldC fid) key st))
      ((cgenInv_getField _ _).mpr ((cgenInv_enter _ _ _).mpr hinv))
    rw [hA] at h2
    simpa [cgenCrownDispatch, hfind, hA] using h2
  · intro key st fid hfind st2 hA hld hinv
    have h2 := cgenAssigment_inv (cgenGetField fid (cgenEnter (InpCrown.fieldC fid) key st))
      ((cgenInv_getField _ _).mpr ((cgenInv_enter _ _ _).mpr hinv))
    rw [hA] at h2
    simp only [cgenCrownDispatch, hfind, hA, hld, if_pos]
    exact (cgenInv_restore _ _ _).mpr h2
  · intro key st fid hfind st2 hA hld hinv
    have h2 := cgenAssigment_inv (cgenGetField fid (cgenEnter (InpCrown.fieldC fid) key st))
      ((cgenInv_getField _ _).mpr ((cgenInv_enter _ _ _).mpr hinv))
    rw [hA] at h2
    simpa [cgenCrownDispatch, hfind, hA, hld] using h2
  · intro key st fid hfind hinv
    have h2 : cgenInv (cgenGetField fid (cgenEnter (InpCrown.fieldC fid) key st)) :=
      (cgenInv_getField _ _).mpr ((cgenInv_enter _ _ _).mpr hinv)
    simpa [cgenCrownDispatch, hfind] using h2
  · intro key st hinv
    simp only [cgenCrownDispatch]
    exact (cgenInv_restore _ _ _).mpr ((cgenInv_enter _ _ _).mpr hinv)
  · intro st hinv
    simpa [cgenDictEntries] using hinv
  · intro st k sub rest st2 e hd ih1 hinv
    have h2 := ih1 hinv
    rw [hd] at h2
    simpa [cgenDictEntries, hd] using h2
  · intro st k sub rest st2 hd ih1 ih3 hinv
    have h2 := ih1 hinv
    rw [hd] at h2
    have h3 := ih3 h2
    simpa [cgenDictEntries, hd] using h3
  · intro i st hinv
    simpa [cgenListItems] using hinv
  · intro i st sub rest st2 e hd ih1 hinv
    have h2 := ih1 hinv
    rw [hd] at h2
    simpa [cgenListItems, hd] using h2
  · intro i st sub rest st2 hd ih1 ih2 hinv
    have h2 := ih1 hinv
    rw [hd] at h2
    have h3 := ih2 h2
    simpa [cgenListItems, hd] using h3

/-- The extra-targets generation only reads configuration; the tracker
state passes through unchanged. -/
theorem cgenExtraTargetsLoop_fst (cfg : Config) (cm : Bool) (tgts : List String) :
    ∀ st : GenSt, (cgenExtraTargetsLoop cfg cm tgts st).1 = st := by
  induction tgts with
  | nil => intro st; simp [cgenExtraTargetsLoop]
  | cons t rest ih =>
    intro st
    cases hf : cfg.fields.find? (fun f => f.id = t) with
    | none => simp [cgenExtraTargetsLoop, hf]
    | some fld =>
      by_cases hr : (cm || fld.isRequired) = true
      · by_cases hl : (alookup cfg.fieldLoaders t).isSome = true
        · simp [cgenExtraTargetsLoop, hf, hr, hl, ih]
        · simp [cgenExtraTargetsLoop, hf, hr, hl]
      · simp [cgenExtraTargetsLoop, hf, hr, ih]

/-- Claim C9: within one compilation, the compiler plans the
parent-container wrong-type check for any path at most once: the emitted
check list of a full generation pass has no duplicates, even though
several children sharing one parent make the compile-time recursion reach
that parent's read repeatedly. -/
theorem claim_C9_type_check_planned_at_most_once (cfg : Config) :
    ((cgenRun cfg).1).emittedTypeChecks.Nodup := by
  have H := cgen_inv_all cfg
  suffices h : cgenInv (cgenRun cfg).1 from h.1
  have h0 : cgenInv ⟨[], Option.none, [cfg.crown], [], [], []⟩ := by
    simp [cgenInv]
  unfold cgenRun
  cases hcr : cfg.crown with
  | dictC m ep =>
    rcases hw : cgenDictEntries cfg m ⟨[], Option.none, [InpCrown.dictC m ep], [], [], []⟩
      with ⟨st1, oe⟩
    have h1 : cgenInv st1 := by
      have := H.2.2 m ⟨[], Option.none, [InpCrown.dictC m ep], [], [], []⟩ (by simp [cgenInv])
      rw [hw] at this
      exact this
    cases oe with
    | none =>
      cases hem : cfg.extraMove with
      | noMove => simpa [hw, hem] using h1
      | extraTargets tgts =>
        simpa [hw, hem, cgenExtraTargetsLoop_fst] using h1
    | some e => simpa [hw] using h1
  | listC m ep =>
    rcases hw : cgenListItems cfg m 0 ⟨[], Option.none, [InpCrown.listC m ep], [], [], []⟩
      with ⟨st1, oe⟩
    have h1 : cgenInv st1 := by
      have := H.2.1 m 0 ⟨[], Option.none, [InpCrown.listC m ep], [], [], []⟩ (by simp [cgenInv])
      rw [hw] at this
      exact this
    cases oe with
    | none =>
      cases hem : cfg.extraMove with
      | noMove => simpa [hw, hem] using h1
      | extraTargets tgts =>
        simpa [hw, hem, cgenExtraTargetsLoop_fst] using h1
    | some e => simpa [hw] using h1
  | fieldC fid => simp [cgenInv]
  | noneC => simp [cgenInv]

/-! ## Claim C2: Collect plus ExtraTargets routes exactly the unclaimed
sub-mapping -/

/-- Modelled from the spec: the sub-mapping of input entries whose keys are
not claimed by the crown at one nesting level. -/
def unclaimedSubMapping (m : List (String × Value)) (declared : List String) :
    List (String × Value) :=
  m.filter (fun p => decide (p.1 ∉ declared))

theorem aupdate_self_of_alookup {κ : Type} [DecidableEq κ] {β : Type}
    (E : List (κ × β)) (k : κ) (v : β) (h : alookup E k = some v) : aupdate E k v = E := by
  induction E with
  | nil => simp [alookup] at h
  | cons p rest ih =>
    obtain ⟨k1, w⟩ := p
    by_cases hk : k1 = k
    · simp [alookup, hk] at h
      simp [aupdate, hk, h]
    · simp [alookup, hk] at h
      simp [aupdate, hk, ih h]

theorem alookup_eq_none_of_not_mem_keys {κ : Type} [DecidableEq κ] {β : Type}
    (m : List (κ × β)) (k : κ) (h : k ∉ m.map Prod.fst) : alookup m k = Option.none := by
  induction m with
  | nil => rfl
  | cons p rest ih =>
    obtain ⟨k1, v⟩ := p
    rw [List.map_cons, List.mem_cons] at h
    push_neg at h
    have h1 : k1 ≠ k := fun hh => h.1 hh.symm
    simp [alookup, h1, ih h.2]

/-- Write one extra-holder slot. -/
def exWrite (st : RState) (path : List PathElem) (v : Value) : RState :=
  { st with extras := aupdate st.extras path v }

/-- One pass of the ExtraCollect copy loop: with pairwise-distinct present
keys that are all fresh for the holder, the holder receives exactly those
entries, appended in order. -/
theorem collectExtraLoop_full (m : List (String × Value)) (path : List PathElem) :
    ∀ (ks : List String) (e0 : List (String × Value)) (st : RState),
    ks.Nodup →
    (∀ k ∈ ks, k ∈ m.map Prod.fst) →
    (∀ k ∈ ks, alookup e0 k = Option.none) →
    alookup st.extras path = some (Value.vdict e0) →
    collectExtraLoop (some (Value.vdict m)) ks path st
      = (exWrite st path (Value.vdict (e0 ++ ks.map (fun k => (k, lookupD m k)))),
         Option.none) := by
  intro ks
  induction ks with
  | nil =>
    intro e0 st _ _ _ hex
    simp [collectExtraLoop, exWrite,
      aupdate_self_of_alookup st.extras path (Value.vdict e0) hex]
  | cons k ks ih =>
    intro e0 st hnd hmem hfresh hex
    obtain ⟨v, hv⟩ := alookup_of_mem_keys m k (hmem k (by simp))
    have hknotks : k ∉ ks := (List.nodup_cons.mp hnd).1
    have hnd2 : ks.Nodup := (List.nodup_cons.mp hnd).2
    have hfresh0 : alookup e0 k = Option.none := hfresh k (by simp)
    have he0 : aupdate e0 k v = e0 ++ [(k, v)] := aupdate_of_alookup_none e0 k v hfresh0
    have hstep : collectExtraLoop (some (Value.vdict m)) (k :: ks) path st
        = collectExtraLoop (some (Value.vdict m)) ks path
            (exWrite st path (Value.vdict (e0 ++ [(k, v)]))) := by
      simp [collectExtraLoop, pyLookup, hv, hex, pySetItem, he0, exWrite]
    rw [hstep]
    have hex2 : alookup (exWrite st path (Value.vdict (e0 ++ [(k, v)]))).extras path
        = some (Value.vdict (e0 ++ [(k, v)])) := alookup_aupdate_self _ _ _
    have hfresh2 : ∀ k2 ∈ ks, alookup (e0 ++ [(k, v)]) k2 = Option.none := by
      intro k2 hk2
      rw [alookup_append]
      have hne : k ≠ k2 := fun hh => hknotks (hh ▸ hk2)
      simp [hfresh k2 (by simp [hk2]), alookup, hne]
    have hrec := ih (e0 ++ [(k, v)]) (exWrite st path (Value.vdict (e0 ++ [(k, v)])))
      hnd2 (fun k2 hk2 => hmem k2 (by simp [hk2])) hfresh2 hex2
    rw [hrec]
    have hl : lookupD m k = v := by simp [lookupD, hv]
    simp [exWrite, aupdate_aupdate_same, hl]

/-- Turning the unclaimed key list back into the input's own entries. -/
theorem map_lookupD_filter (m : List (String × Value)) (p : String → Bool)
    (hnd : (m.map Prod.fst).Nodup) :
    ((m.map Prod.fst).filter p).map (fun k => (k, lookupD m k))
      = m.filter (fun q => p q.1) := by
  induction m with
  | nil => rfl
  | cons q rest ih =>
    obtain ⟨k1, v1⟩ := q
    rw [List.map_cons] at hnd
    have hk1 : k1 ∉ rest.map Prod.fst := (List.nodup_cons.mp hnd).1
    have hnd2 : (rest.map Prod.fst).Nodup := (List.nodup_cons.mp hnd).2
    have hcong : ∀ k ∈ (rest.map Prod.fst).filter p,
        (k, lookupD ((k1, v1) :: rest) k) = (k, lookupD rest k) := by
      intro k hkm
      have hmemr : k ∈ rest.map Prod.fst := List.mem_of_mem_filter hkm
      have hne : k1 ≠ k := fun hh => hk1 (hh ▸ hmemr)
      simp [lookupD, alookup, hne]
    have hmapr : List.map (fun k => (k, lookupD ((k1, v1) :: rest) k))
        (List.filter p (List.map Prod.fst rest)) = List.filter (fun q => p q.1) rest :=
      (List.map_congr_left hcong).trans (ih hnd2)
    have hhead : lookupD ((k1, v1) :: rest) k1 = v1 := by simp [lookupD, alookup]
    by_cases hp : p k1
    · simp [List.filter_cons, hp, hhead, hmapr]
    · simp [List.filter_cons, hp, hmapr]

/-- The two-level Collect layout with one extra target used for claim C2. -/
def cfgC2 (g : Value → Except PyExc Value) : Config :=
  ⟨InpCrown.dictC [("k1", InpCrown.fieldC "f1"),
     ("k2", InpCrown.dictC [("k3", InpCrown.fieldC "f3")] ExtraPolicy.collect)]
     ExtraPolicy.collect,
   ExtraMove.extraTargets ["fx"], DebugTrail.dtNone, false,
   [⟨"f1", false⟩, ⟨"f3", false⟩, ⟨"fx", true⟩],
   [("f1", FieldLoader.asIsStub), ("f3", FieldLoader.asIsStub),
    ("fx", FieldLoader.loaderFn g)]⟩

/-- Claim C2: with extra_policy Collect at every level and
extra_move = Targets([fx]), the loader of fx is invoked with exactly the
sub-mapping of input keys not claimed by any FieldCrown, with the overflow
of the nested level appearing nested under its own key. -/
theorem claim_C2_collect_targets_receive_unclaimed_submapping
    (g : Value → Except PyExc Value) (m m2 : List (String × Value))
    (hk2 : alookup m "k2" = some (Value.vdict m2))
    (hnd : (m.map Prod.fst).Nodup) (hnd2 : (m2.map Prod.fst).Nodup) :
    (extract (cfgC2 g) (Value.vdict m)).calls
      = [("fx", Value.vdict
          (("k2", Value.vdict (unclaimedSubMapping m2 ["k3"]))
            :: unclaimedSubMapping m ["k1", "k2"]))] := by
  have hcrown : (cfgC2 g).crown = InpCrown.dictC [("k1", InpCrown.fieldC "f1"),
      ("k2", InpCrown.dictC [("k3", InpCrown.fieldC "f3")] ExtraPolicy.collect)]
      ExtraPolicy.collect := rfl
  have hem : (cfgC2 g).extraMove = ExtraMove.extraTargets ["fx"] := rfl
  have hdt : (cfgC2 g).debugTrail = DebugTrail.dtNone := rfl
  have hfs : (cfgC2 g).fields
      = [⟨"f1", false⟩, ⟨"f3", false⟩, ⟨"fx", true⟩] := rfl
  have hflo : (cfgC2 g).fieldLoaders
      = [("f1", FieldLoader.asIsStub), ("f3", FieldLoader.asIsStub),
         ("fx", FieldLoader.loaderFn g)] := rfl
  obtain ⟨OF1, hchild1⟩ : ∃ OF1, genFieldCrown (cfgC2 g) "f1"
      (PathElem.key "k1") [] (some (Value.vdict m)) 2
      ⟨[], false, [], [], [([], Value.vdict [])], [], []⟩
      = (⟨[], false, [], OF1, [([], Value.vdict [])], [([] : List PathElem)], []⟩,
         Option.none) := by
    cases hk1 : alookup m "k1" with
    | none =>
      exact ⟨[], by simp [genFieldCrown, cfgC2,
        genAssigmentFromParentData, assignCore, pyLookup, hk1, lookupErrorOf,
        List.find?]⟩
    | some v1 =>
      exact ⟨[("f1", v1)], by simp [genFieldCrown, cfgC2,
        genAssigmentFromParentData, assignCore, pyLookup, hk1,
        genFieldAssigment, assignField, alookup, aupdate, List.find?]⟩
  obtain ⟨OF2, hchild3⟩ : ∃ OF2, genFieldCrown (cfgC2 g) "f3"
      (PathElem.key "k3") [PathElem.key "k2"] (some (Value.vdict m2)) 1
      ⟨[], false, [], OF1,
        [([], Value.vdict []), ([PathElem.key "k2"], Value.vdict [])],
        [([] : List PathElem)], []⟩
      = (⟨[], false, [], OF2,
          [([], Value.vdict []), ([PathElem.key "k2"], Value.vdict [])],
          [[PathElem.key "k2"], ([] : List PathElem)], []⟩, Option.none) := by
    cases hk3 : alookup m2 "k3" with
    | none =>
      exact ⟨OF1, by simp [genFieldCrown, cfgC2,
        genAssigmentFromParentData, assignCore, pyLookup, hk3, lookupErrorOf,
        List.find?]⟩
    | some v3 =>
      exact ⟨aupdate OF1 "f3" v3, by simp [genFieldCrown, cfgC2,
        genAssigmentFromParentData, assignCore, pyLookup, hk3,
        genFieldAssigment, assignField, alookup, List.find?]⟩
  have hinner0 : ([] : List (String × Value))
      ++ ((m2.map Prod.fst).filter (fun k => decide (k ∉ (["k3"] : List String)))).map
          (fun k => (k, lookupD m2 k))
      = unclaimedSubMapping m2 ["k3"] := by
    rw [List.nil_append, map_lookupD_filter m2 _ hnd2]
    rfl
  have hloop2 := collectExtraLoop_full m2 [PathElem.key "k2"]
      ((m2.map Prod.fst).filter (fun k => decide (k ∉ (["k3"] : List String)))) []
      (⟨[], false, [], OF2,
        [([], Value.vdict []), ([PathElem.key "k2"], Value.vdict [])],
        [[PathElem.key "k2"], ([] : List PathElem)], []⟩ : RState)
      (hnd2.filter _)
      (fun k hk => List.mem_of_mem_filter hk)
      (fun k _ => rfl)
      (by rfl)
  rw [hinner0] at hloop2
  simp only [exWrite] at hloop2
  have hks2 : pyKeySet (some (Value.vdict m2)) = Except.ok (m2.map Prod.fst) := by
    simp [pyKeySet, List.dedup_eq_self.mpr hnd2]
  have hpol2 : dictExtraPolicyStep (cfgC2 g) ["k3"] ExtraPolicy.collect
      [PathElem.key "k2"] (some (Value.vdict m2))
      (⟨[], false, [], OF2,
        [([], Value.vdict []), ([PathElem.key "k2"], Value.vdict [])],
        [[PathElem.key "k2"], ([] : List PathElem)], []⟩ : RState)
      = (⟨[], false, [], OF2,
          [([], Value.vdict []),
           ([PathElem.key "k2"], Value.vdict (unclaimedSubMapping m2 ["k3"]))],
          [[PathElem.key "k2"], ([] : List PathElem)], []⟩, Option.none) := by
    rw [dictExtraPolicyStep, hks2]
    simp only []
    rw [hloop2]
    simp [aupdate]
  have houter0 : [("k2", Value.vdict (unclaimedSubMapping m2 ["k3"]))]
      ++ ((m.map Prod.fst).filter (fun k => decide (k ∉ (["k1", "k2"] : List String)))).map
          (fun k => (k, lookupD m k))
      = ("k2", Value.vdict (unclaimedSubMapping m2 ["k3"]))
          :: unclaimedSubMapping m ["k1", "k2"] := by
    rw [List.singleton_append, map_lookupD_filter m _ hnd]
    rfl
  have hfreshroot : ∀ k ∈ (m.map Prod.fst).filter
      (fun k => decide (k ∉ (["k1", "k2"] : List String))),
      alookup [("k2", Value.vdict (unclaimedSubMapping m2 ["k3"]))] k = Option.none := by
    intro k hkm
    have h1 := List.of_mem_filter hkm
    simp at h1
    have hne : ¬ ("k2" = k) := fun hh => h1.2 hh.symm
    simp [alookup, hne]
  have hlooproot := collectExtraLoop_full m []
      ((m.map Prod.fst).filter (fun k => decide (k ∉ (["k1", "k2"] : List String))))
      [("k2", Value.vdict (unclaimedSubMapping m2 ["k3"]))]
      (⟨[], false, [], OF2,
        [([], Value.vdict [("k2", Value.vdict (unclaimedSubMapping m2 ["k3"]))]),
         ([PathElem.key "k2"], Value.vdict (unclaimedSubMapping m2 ["k3"]))],
        [[PathElem.key "k2"], ([] : List PathElem)], []⟩ : RState)
      (hnd.filter _)
      (fun k hk => List.mem_of_mem_filter hk)
      hfreshroot
      (by rfl)
  rw [houter0] at hlooproot
  simp only [exWrite] at hlooproot
  have hks : pyKeySet (some (Value.vdict m)) = Except.ok (m.map Prod.fst) := by
    simp [pyKeySet, List.dedup_eq_self.mpr hnd]
  have hpolroot : dictExtraPolicyStep (cfgC2 g) ["k1", "k2"] ExtraPolicy.collect
      [] (some (Value.vdict m))
      (⟨[], false, [], OF2,
        [([], Value.vdict [("k2", Value.vdict (unclaimedSubMapping m2 ["k3"]))]),
         ([PathElem.key "k2"], Value.vdict (unclaimedSubMapping m2 ["k3"]))],
        [[PathElem.key "k2"], ([] : List PathElem)], []⟩ : RState)
      = (⟨[], false, [], OF2,
          [([], Value.vdict (("k2", Value.vdict (unclaimedSubMapping m2 ["k3"]))
              :: unclaimedSubMapping m ["k1", "k2"])),
           ([PathElem.key "k2"], Value.vdict (unclaimedSubMapping m2 ["k3"]))],
          [[PathElem.key "k2"], ([] : List PathElem)], []⟩, Option.none) := by
    rw [dictExtraPolicyStep, hks]
    simp only []
    rw [hlooproot]
    simp [aupdate]
  cases hg : g (Value.vdict (("k2", Value.vdict (unclaimedSubMapping m2 ["k3"]))
      :: unclaimedSubMapping m ["k1", "k2"])) with
  | ok v =>
    simp [extract, initRState, genCrownDispatch, genDictCrownEntries,
      genAssigmentFromParentData, assignCore, pyLookup, hk2, hcrown, hem, hdt,
      canCollectExtra, aupdate, hchild1, hchild3, hpol2, hpolroot,
      addSelfExtraToParentExtra, pySetItem, alookup, genExtraTargetsAssigment,
      rootExtraPolicy, extraTargetsLoopCollect, hfs, hflo, genFieldAssigment,
      assignField, List.find?, hg]
  | error e =>
    simp [extract, initRState, genCrownDispatch, genDictCrownEntries,
      genAssigmentFromParentData, assignCore, pyLookup, hk2, hcrown, hem, hdt,
      canCollectExtra, aupdate, hchild1, hchild3, hpol2, hpolroot,
      addSelfExtraToParentExtra, pySetItem, alookup, genExtraTargetsAssigment,
      rootExtraPolicy, extraTargetsLoopCollect, hfs, hflo, genFieldAssigment,
      assignField, List.find?, hg]

/-- Witness for claim C2 at a concrete input with overflow at both levels. -/
theorem claim_C2_witness :
    (extract (cfgC2 (fun v => Except.ok v))
      (Value.vdict [("k1", Value.vint 1), ("extra1", Value.vint 7),
        ("k2", Value.vdict [("k3", Value.vint 2), ("inner1", Value.vint 8)])])).calls
    = [("fx", Value.vdict
        [("k2", Value.vdict [("inner1", Value.vint 8)]), ("extra1", Value.vint 7)])] := by
  have h := claim_C2_collect_targets_receive_unclaimed_submapping
    (fun v => Except.ok v)
    [("k1", Value.vint 1), ("extra1", Value.vint 7),
      ("k2", Value.vdict [("k3", Value.vint 2), ("inner1", Value.vint 8)])]
    [("k3", Value.vint 2), ("inner1", Value.vint 8)]
    (by rfl) (by decide) (by decide)
  exact h.trans rfl

end Adaptix
